import Mathlib

/-!
Verification of the newsletter pipeline core (`app.py`): article
classification (`categorize_article`), extractive summarization
(`summarize_text`), per-article processing (`process_articles`) and the
sector-bucketed aggregation performed inside `generate_newsletter_html`.
The HTTP fetch, Jinja template rendering and file output are outside the
modelled core, exactly as the specification scopes them.

Python strings are modelled as Lean `String`s (with their `List Char`
data); `str.lower()` as a per-character `Char.toLower` map; the Python
substring test `needle in haystack` as contiguous-sublist search over the
character lists.  A Python dict with insertion order is modelled as an
association list.  The in-place mutation that `process_articles` performs
on the caller's article dicts is made explicit: the function returns both
the post-state of the input list and the `processed_data` result list.
-/

namespace Newsletter

/-- Value of an optional article dict entry: the key may be absent
(`missing`), present with Python `None` (`null`), or hold a string. -/
inductive Field where
  | missing : Field
  | null : Field
  | str : String → Field
deriving DecidableEq

/-- An article dict as built by the fetch layer: the five caller-supplied
entries, plus the `sectors` and `generated_summary` entries that
`process_articles` adds in place (absent, i.e. `none`, on fresh input). -/
structure Article where
  title : Field
  summary : Field
  link : String
  published : String
  source : String
  sectors : Option (List String)
  generated_summary : Option String
deriving DecidableEq

/-- The sector catalog: an insertion-ordered dict from sector name to its
keyword list. -/
abbrev SectorCatalog := List (String × List String)

/-- Python `s.lower()`, modelled character by character. -/
def lower (s : String) : String := String.mk (s.data.map Char.toLower)

/-- Whether the first list starts the second (helper for substring search). -/
def isPrefixList : List Char → List Char → Bool
  | [], _ => true
  | _ :: _, [] => false
  | a :: as, b :: bs => a == b && isPrefixList as bs

/-- Whether `needle` occurs contiguously inside the second list. -/
def occursIn (needle : List Char) : List Char → Bool
  | [] => needle.isEmpty
  | c :: t => isPrefixList needle (c :: t) || occursIn needle t

/-- Python `needle in haystack` on strings: contiguous substring test. -/
def strIn (needle haystack : String) : Bool := occursIn needle.data haystack.data

/-- `article.get(key, '')` followed by f-string interpolation: a missing key
yields the default `''`; a key holding `None` is interpolated as the literal
text `"None"` (since `get` only defaults on absent keys); a string is itself. -/
def Field.fmt : Field → String
  | .missing => ""
  | .null => "None"
  | .str s => s

/-- `f"{article.get('title', '')}. {article.get('summary', '')}"` from
`process_articles`. -/
def combined_text (a : Article) : String := a.title.fmt ++ ". " ++ a.summary.fmt

/-- `categorize_article(article_text, sectors)`: lowercase the text (spaCy's
`nlp(...).text` returns its input verbatim, so `doc.text` is the lowercased
input), then append each sector whose keyword list has a member occurring as
a substring of that lowercased text, in catalog iteration order. -/
def categorize_article (article_text : String) (sectors : SectorCatalog) : List String :=
  let docText := lower article_text
  sectors.foldl (fun acc p => if p.2.any (fun k => strIn k docText) then acc ++ [p.1] else acc) []

/-- Split a character list into segments, each ending at a sentence stop. -/
def splitAfterStops (acc : List Char) : List Char → List (List Char)
  | [] => [acc.reverse]
  | c :: rest =>
      if c == '.' || c == '!' || c == '?' then (c :: acc).reverse :: splitAfterStops [] rest
      else splitAfterStops (c :: acc) rest

/-- Strip leading and trailing whitespace from a character list. -/
def trimChars (cs : List Char) : List Char :=
  ((cs.dropWhile Char.isWhitespace).reverse.dropWhile Char.isWhitespace).reverse

/-- Modelled from the spec: the sentence segmentation used by
`summarize_text` (spaCy's `doc.sents` from the external `en_core_web_sm`
pipeline) is not part of this repository.  The spec requires only a stable,
deterministic segmenter — "a simple punctuation-based segmenter is
acceptable" — with empty and whitespace-only text yielding an empty
sentence sequence.  Sentences end at `.`, `!` or `?`; segments containing
no alphanumeric character (in particular the bare `". "` artifact)
contribute no sentence. -/
def sent_segments (text : String) : List String :=
  ((splitAfterStops [] text.data).filter (fun cs => cs.any Char.isAlphanum)).map
    (fun cs => String.mk (trimChars cs))

/-- Python `sep.join(pieces)`. -/
def pyJoin (sep : String) : List String → String
  | [] => ""
  | [s] => s
  | s :: rest => s ++ sep ++ pyJoin sep rest

/-- The default of `summarize_text`'s `max_sentences` parameter. -/
def default_max_sentences : Nat := 3

/-- `" ".join(sentences[:max_sentences])` from `summarize_text`. -/
def summarize_sentences (sentences : List String) (max_sentences : Nat) : String :=
  pyJoin " " (sentences.take max_sentences)

/-- `summarize_text(text, max_sentences)`: segment, keep the first
`max_sentences` sentences, join with single spaces. -/
def summarize_text (text : String) (max_sentences : Nat) : String :=
  summarize_sentences (sent_segments text) max_sentences

/-- One iteration of the `process_articles` loop on one article dict:
build the combined text, categorize it, and if at least one sector matched,
set the `sectors` and `generated_summary` keys on the same dict and report
that it was appended to `processed_data`. -/
def process_article_step (sectors : SectorCatalog) (article : Article) : Article × Bool :=
  let identified_sectors := categorize_article (combined_text article) sectors
  if identified_sectors.isEmpty then (article, false)
  else ({ article with
            sectors := some identified_sectors,
            generated_summary :=
              some (summarize_text (combined_text article) default_max_sentences) },
        true)

/-- `process_articles(articles, sectors)`: first component is the post-state
of the caller's article list (the loop mutates the dicts in place), second
component is the returned `processed_data` list, whose entries alias the
mutated input dicts. -/
def process_articles (articles : List Article) (sectors : SectorCatalog) :
    List Article × List Article :=
  match articles with
  | [] => ([], [])
  | a :: rest =>
      let s := process_article_step sectors a
      let r := process_articles rest sectors
      (s.1 :: r.1, if s.2 then s.1 :: r.2 else r.2)

/-- `article['sectors']` as read by the aggregation loop; every
ProcessedArticle has the key set, a fresh article reads as `[]`. -/
def Article.sectorsList (a : Article) : List String := a.sectors.getD []

/-- `articles_by_sector[sector].append(article)` guarded by
`if sector in articles_by_sector`: an unknown sector name changes nothing. -/
def append_article (buckets : List (String × List Article)) (sector : String)
    (article : Article) : List (String × List Article) :=
  buckets.map (fun p => if p.1 = sector then (p.1, p.2 ++ [article]) else p)

/-- `{sector: [] for sector in SECTORS.keys()}`. -/
def init_buckets (sectors : SectorCatalog) : List (String × List Article) :=
  sectors.map (fun p => (p.1, []))

/-- The grouping double loop of `generate_newsletter_html`: for each
processed article in order, for each of its sector tags in order, append it
to that sector's bucket when the bucket exists. -/
def articles_by_sector (sectors : SectorCatalog) (processed : List Article) :
    List (String × List Article) :=
  processed.foldl (fun bs a => a.sectorsList.foldl (fun bs2 s => append_article bs2 s a) bs)
    (init_buckets sectors)

/-- `filtered_articles_by_sector`: drop sectors whose bucket is empty.  This
is the NewsletterPayload handed to the (out of scope) template rendering. -/
def newsletter_payload (sectors : SectorCatalog) (processed : List Article) :
    List (String × List Article) :=
  (articles_by_sector sectors processed).filter (fun p => !p.2.isEmpty)

/-- The Classifier result as the spec words it, with verbatim keyword
containment in the lowercased text: the catalog entries whose keyword list
has a match, in catalog order, mapped to their names. -/
def categorize_spec (article_text : String) (sectors : SectorCatalog) : List String :=
  (sectors.filter (fun p => p.2.any (fun k => strIn k (lower article_text)))).map Prod.fst

/-- Case-insensitive substring occurrence, as the spec's "case-insensitive
substring" wording reads: both sides lowercased before the containment test. -/
def occursCaseInsensitively (keyword text : String) : Bool := strIn (lower keyword) (lower text)

/-- The bucket the spec prescribes for one sector: the processed articles
whose sector tags contain it, in input order. -/
def bucketOf (processed : List Article) (sector : String) : List Article :=
  processed.filter (fun a => decide (sector ∈ a.sectorsList))

/-- The payload as the spec words it: catalog keys in order, each paired
with its bucket, empty buckets dropped. -/
def payload_spec (sectors : SectorCatalog) (processed : List Article) :
    List (String × List Article) :=
  ((sectors.map Prod.fst).map (fun k => (k, bucketOf processed k))).filter (fun p => !p.2.isEmpty)

/-- Number of occurrences of `k` in a list of sector names. -/
def countOcc (k : String) : List String → Nat
  | [] => 0
  | s :: rest => if s = k then 1 + countOcc k rest else countOcc k rest

/-- What the grouping loop accumulates into one sector's bucket: for each
processed article in input order, one copy per occurrence of the sector
among its tags. -/
def collect (processed : List Article) (k : String) : List Article :=
  match processed with
  | [] => []
  | a :: rest => List.replicate (countOcc k a.sectorsList) a ++ collect rest k

/-- The five caller-supplied entries of an article dict. -/
def baseFields (a : Article) : Field × Field × String × String × String :=
  (a.title, a.summary, a.link, a.published, a.source)

/-! ## General lemmas about the embedded operations -/

/-- A left fold that conditionally appends a singleton per element is a
filter followed by a map. -/
theorem foldl_append_filter_map {α β : Type} (q : α → Bool) (f : α → β)
    (l : List α) : ∀ init : List β,
      l.foldl (fun acc x => if q x then acc ++ [f x] else acc) init
        = init ++ (l.filter q).map f := by
  induction l with
  | nil => intro init; simp
  | cons x t ih =>
      intro init
      cases hqx : q x <;>
        simp [List.foldl_cons, List.filter_cons, hqx, ih, List.append_assoc]

/-- The classifier loop computes the filter-map form `categorize_spec`. -/
theorem categorize_article_eq_spec (t : String) (S : SectorCatalog) :
    categorize_article t S = categorize_spec t S := by
  simp only [categorize_article, categorize_spec]
  rw [foldl_append_filter_map]
  simp

/-- `List.any` only depends on the pointwise values of its predicate. -/
theorem listAnyCongr {α : Type} {l : List α} {f g : α → Bool}
    (h : ∀ x ∈ l, f x = g x) : l.any f = l.any g := by
  induction l with
  | nil => rfl
  | cons x t ih =>
      simp only [List.any_cons]
      rw [h x (List.mem_cons_self x t), ih (fun y hy => h y (List.mem_cons_of_mem x hy))]

/-- When no keyword of any sector occurs in the lowercased text, the
classifier returns the empty sequence. -/
theorem categorize_eq_nil_of_no_match (t : String) (S : SectorCatalog)
    (h : ∀ p ∈ S, ∀ k ∈ p.2, strIn k (lower t) = false) :
    categorize_article t S = [] := by
  rw [categorize_article_eq_spec]
  unfold categorize_spec
  rw [List.filter_eq_nil_iff.mpr, List.map_nil]
  intro p hp
  simp only [List.any_eq_true, not_exists, not_and]
  intro k hk
  rw [h p hp k hk]
  simp

/-! ## C1: classifier behaviour -/

/-- The claim's own example catalog. -/
def scaryCatalog : SectorCatalog := [("Automotive", ["car"])]

/-- A catalog with a mixed-case keyword, as the repository's own `SECTORS`
configuration contains several of (e.g. "AI", "FDA", "EV", "IPO"). -/
def aiCatalog : SectorCatalog := [("Technology", ["AI"])]

/-- Claim C1, counterexample: the keyword "AI" occurs case-insensitively in
the lowercased input text "the ai boom", so the claim requires
`["Technology"]`, yet `categorize_article` returns `[]`: the code tests
verbatim (case-sensitive) containment of the raw keyword in the lowercased
text, so a keyword containing an uppercase letter can never match. -/
theorem categorize_article_case_cex :
    occursCaseInsensitively "AI" (lower "the AI boom") = true ∧
    categorize_article "the AI boom" aiCatalog = [] := by decide

/-- Claim C1, amended: for a duplicate-free catalog, `categorize_article`
returns exactly the catalog sector names, in catalog iteration order and
each at most once, whose keyword list has a member occurring verbatim as a
substring of the lowercased input text; it returns `[]` when no keyword so
occurs; and when every keyword is lowercase this coincides with
case-insensitive occurrence in the input text. -/
theorem categorize_article_correct (t : String) (S : SectorCatalog)
    (hnd : (S.map Prod.fst).Nodup) :
    categorize_article t S = categorize_spec t S ∧
    (categorize_article t S).Nodup ∧
    ((∀ p ∈ S, ∀ k ∈ p.2, strIn k (lower t) = false) → categorize_article t S = []) ∧
    ((∀ p ∈ S, ∀ k ∈ p.2, lower k = k) →
      categorize_article t S
        = (S.filter (fun p => p.2.any (fun k => occursCaseInsensitively k t))).map Prod.fst) := by
  refine ⟨categorize_article_eq_spec t S, ?_, categorize_eq_nil_of_no_match t S, ?_⟩
  · rw [categorize_article_eq_spec]
    exact List.Nodup.sublist (List.Sublist.map Prod.fst (List.filter_sublist S)) hnd
  · intro hlow
    rw [categorize_article_eq_spec]
    unfold categorize_spec occursCaseInsensitively
    congr 1
    apply List.filter_congr
    intro p hp
    apply listAnyCongr
    intro k hk
    rw [hlow p hp k hk]

/-- Claim C1, witness: the claim's own example, catalog
`{"Automotive": {"car"}}` with text `"this is scary"`; the classifier
returns `["Automotive"]` through the "car"-inside-"scary" substring match. -/
theorem categorize_article_correct_witness :
    ((scaryCatalog.map Prod.fst).Nodup) ∧
    (categorize_article "this is scary" scaryCatalog
        = categorize_spec "this is scary" scaryCatalog ∧
      (categorize_article "this is scary" scaryCatalog).Nodup ∧
      ((∀ p ∈ scaryCatalog, ∀ k ∈ p.2, strIn k (lower "this is scary") = false) →
        categorize_article "this is scary" scaryCatalog = []) ∧
      ((∀ p ∈ scaryCatalog, ∀ k ∈ p.2, lower k = k) →
        categorize_article "this is scary" scaryCatalog
          = (scaryCatalog.filter
              (fun p => p.2.any (fun k => occursCaseInsensitively k "this is scary"))).map
                Prod.fst)) ∧
    categorize_article "this is scary" scaryCatalog = ["Automotive"] :=
  ⟨by decide, categorize_article_correct "this is scary" scaryCatalog (by decide), by decide⟩

/-! ## C3 and C9: summarizer behaviour -/

/-- Claim C3: the summarizer joins the first `min(max_sentences, length)`
sentences with single spaces in their original order, yields `""` on an
empty sentence sequence, and the default sentence limit is 3. -/
theorem summarize_takes_first_min (sentences : List String) (n : Nat) :
    summarize_sentences sentences n
      = pyJoin " " (sentences.take (min n sentences.length)) ∧
    summarize_sentences [] n = "" ∧
    default_max_sentences = 3 := by
  refine ⟨?_, by simp [summarize_sentences, pyJoin], rfl⟩
  unfold summarize_sentences
  congr 1
  by_cases h : n ≤ sentences.length
  · rw [Nat.min_eq_left h]
  · push_neg at h
    rw [Nat.min_eq_right (Nat.le_of_lt h), List.take_length,
      List.take_of_length_le (Nat.le_of_lt h)]

/-- Claim C9: the summarizer is deterministic — two invocations on the same
sentence sequence (or the same raw text) with the same limit return
identical strings. -/
theorem summarize_deterministic (t1 t2 : String) (s1 s2 : List String)
    (n1 n2 : Nat) (ht : t1 = t2) (hs : s1 = s2) (hn : n1 = n2) :
    summarize_sentences s1 n1 = summarize_sentences s2 n2 ∧
    summarize_text t1 n1 = summarize_text t2 n2 := by
  subst ht; subst hs; subst hn; exact ⟨rfl, rfl⟩

/-- Claim C9, witness: two invocations on the concrete two-sentence
document, limit 1. -/
theorem summarize_deterministic_witness :
    ("One. Two." : String) = "One. Two." ∧
    (["One.", "Two."] : List String) = ["One.", "Two."] ∧
    (1 : Nat) = 1 ∧
    (summarize_sentences ["One.", "Two."] 1 = summarize_sentences ["One.", "Two."] 1 ∧
      summarize_text "One. Two." 1 = summarize_text "One. Two." 1) :=
  ⟨rfl, rfl, rfl,
    summarize_deterministic "One. Two." "One. Two." ["One.", "Two."] ["One.", "Two."] 1 1
      rfl rfl rfl⟩

/-! ## Lemmas about `process_articles` -/

/-- Processing one article preserves the five caller-supplied entries,
whether or not a sector matched. -/
theorem process_article_step_base (S : SectorCatalog) (a : Article) :
    baseFields (process_article_step S a).1 = baseFields a := by
  simp only [process_article_step]
  split <;> rfl

/-- The post-state of the caller's list has one entry per input article:
processing never drops or aborts on an article. -/
theorem process_articles_length (articles : List Article) (S : SectorCatalog) :
    (process_articles articles S).1.length = articles.length := by
  induction articles with
  | nil => rfl
  | cons a rest ih => simp [process_articles, ih]

/-- An article whose combined text matches no sector is left unchanged and
not appended to `processed_data`. -/
theorem process_article_step_no_match (S : SectorCatalog) (a : Article)
    (hcat : categorize_article (combined_text a) S = []) :
    process_article_step S a = (a, false) := by
  simp [process_article_step, hcat]

/-- Dropping an unmatched article from anywhere in the input leaves the
`processed_data` result unchanged. -/
theorem processed_skips_unmatched (S : SectorCatalog) (a : Article)
    (hcat : categorize_article (combined_text a) S = []) :
    ∀ pre post : List Article,
      (process_articles (pre ++ a :: post) S).2 = (process_articles (pre ++ post) S).2 := by
  intro pre
  induction pre with
  | nil =>
      intro post
      simp [process_articles, process_article_step_no_match S a hcat]
  | cons x pre ih =>
      intro post
      simp only [List.cons_append, process_articles, List.append_eq]
      rw [ih post]

/-! ## C4: unmatched articles are excluded -/

/-- Claim C4: an article none of whose catalog keywords occurs in its
lowercased combined title-and-summary text never reaches `processed_data`:
the processed sequence, and hence the final payload, are the same as if the
article had not been in the input at all. -/
theorem unmatched_article_excluded (a : Article) (S : SectorCatalog)
    (pre post : List Article)
    (h : ∀ p ∈ S, ∀ k ∈ p.2, strIn k (lower (combined_text a)) = false) :
    (process_articles (pre ++ a :: post) S).2 = (process_articles (pre ++ post) S).2 ∧
    newsletter_payload S (process_articles (pre ++ a :: post) S).2
      = newsletter_payload S (process_articles (pre ++ post) S).2 := by
  have hcat : categorize_article (combined_text a) S = [] :=
    categorize_eq_nil_of_no_match (combined_text a) S h
  have h2 := processed_skips_unmatched S a hcat pre post
  exact ⟨h2, by rw [h2]⟩

/-- An article that matches nothing, to instantiate claim C4. -/
def exQuietArticle : Article :=
  ⟨Field.str "hello", Field.str "world", "l", "p", "s", none, none⟩

/-- A matching financial news article, used at several concrete inputs. -/
def exNewsArticle : Article :=
  ⟨Field.str "Bank stocks rally", Field.str "Markets rise.", "l", "p", "s", none, none⟩

/-- The concrete one-sector catalog used at several concrete inputs. -/
def financeCatalog : SectorCatalog := [("Finance", ["bank", "stock"])]

/-- Claim C4, witness: with the catalog `{"Finance": ["bank", "stock"]}`,
the article "hello"/"world" matches nothing and the processed sequence and
payload are those of the remaining input alone. -/
theorem unmatched_article_excluded_witness :
    (∀ p ∈ financeCatalog, ∀ k ∈ p.2,
        strIn k (lower (combined_text exQuietArticle)) = false) ∧
    ((process_articles ([] ++ exQuietArticle :: [exNewsArticle]) financeCatalog).2
        = (process_articles ([] ++ [exNewsArticle]) financeCatalog).2 ∧
      newsletter_payload financeCatalog
          (process_articles ([] ++ exQuietArticle :: [exNewsArticle]) financeCatalog).2
        = newsletter_payload financeCatalog
            (process_articles ([] ++ [exNewsArticle]) financeCatalog).2) :=
  ⟨by decide,
    unmatched_article_excluded exQuietArticle financeCatalog [] [exNewsArticle] (by decide)⟩

/-! ## Lemmas about the aggregation loop -/

/-- Folding one article's tag list over the buckets appends one copy of the
article to each bucket per occurrence of its key among the tags. -/
theorem inner_fold_eq (a : Article) (ℓ : List String) :
    ∀ bs : List (String × List Article),
      ℓ.foldl (fun bs2 s => append_article bs2 s a) bs
        = bs.map (fun p => (p.1, p.2 ++ List.replicate (countOcc p.1 ℓ) a)) := by
  induction ℓ with
  | nil => intro bs; simp [countOcc]
  | cons s t ih =>
      intro bs
      rw [List.foldl_cons, ih]
      unfold append_article
      rw [List.map_map]
      apply List.map_congr_left
      intro p _
      by_cases hp : p.1 = s
      · simp [Function.comp, hp, countOcc, Nat.one_add, List.replicate_succ,
          List.append_assoc]
      · have hps : ¬(s = p.1) := fun h => hp h.symm
        simp [Function.comp, hp, hps, countOcc]

/-- The grouping double loop appends `collect` to every initial bucket. -/
theorem fold_buckets_eq (P : List Article) :
    ∀ bs : List (String × List Article),
      P.foldl (fun bs1 a => a.sectorsList.foldl (fun bs2 s => append_article bs2 s a) bs1) bs
        = bs.map (fun p => (p.1, p.2 ++ collect P p.1)) := by
  induction P with
  | nil => intro bs; simp [collect]
  | cons a rest ih =>
      intro bs
      rw [List.foldl_cons, inner_fold_eq, ih, List.map_map]
      apply List.map_congr_left
      intro p _
      simp [Function.comp, collect, List.append_assoc]

/-- The grouped buckets: catalog keys in order, each with its collection. -/
theorem articles_by_sector_eq (S : SectorCatalog) (P : List Article) :
    articles_by_sector S P = S.map (fun q => (q.1, collect P q.1)) := by
  unfold articles_by_sector init_buckets
  rw [fold_buckets_eq, List.map_map]
  apply List.map_congr_left
  intro q _
  simp [Function.comp]

/-- On a duplicate-free list, `countOcc` is a membership indicator. -/
theorem countOcc_eq_of_nodup (k : String) (ℓ : List String) (h : ℓ.Nodup) :
    countOcc k ℓ = if k ∈ ℓ then 1 else 0 := by
  induction ℓ with
  | nil => simp [countOcc]
  | cons s t ih =>
      rw [List.nodup_cons] at h
      by_cases hsk : s = k
      · subst hsk
        have ht : countOcc s t = 0 := by
          rw [ih h.2]
          simp [h.1]
        simp [countOcc, ht]
      · have hks : ¬(k = s) := fun h2 => hsk h2.symm
        simp [countOcc, hsk, hks, ih h.2, List.mem_cons]

/-- For articles with duplicate-free tags, the grouping loop's bucket is
exactly the filter of the processed sequence. -/
theorem collect_eq_bucketOf (P : List Article) (k : String)
    (h : ∀ a ∈ P, a.sectorsList.Nodup) :
    collect P k = bucketOf P k := by
  induction P with
  | nil => rfl
  | cons a rest ih =>
      have hnd := h a (List.mem_cons_self a rest)
      have hrest : ∀ x ∈ rest, x.sectorsList.Nodup :=
        fun x hx => h x (List.mem_cons_of_mem a hx)
      show List.replicate (countOcc k a.sectorsList) a ++ collect rest k = _
      rw [countOcc_eq_of_nodup k _ hnd, ih hrest]
      unfold bucketOf
      rw [List.filter_cons]
      by_cases hk : k ∈ a.sectorsList
      · simp [hk]
      · simp [hk]

/-! ## C2: aggregation into the payload -/

/-- Claim C2: for processed articles with duplicate-free tag sequences, the
payload is exactly the spec's: catalog keys in catalog iteration order,
each bucket holding, in input order, exactly the articles tagged with that
sector (so one appearance per matching bucket), and empty buckets absent. -/
theorem payload_matches_spec (S : SectorCatalog) (P : List Article)
    (hart : ∀ a ∈ P, a.sectorsList.Nodup) :
    newsletter_payload S P = payload_spec S P := by
  unfold newsletter_payload payload_spec
  rw [articles_by_sector_eq, List.map_map]
  congr 1
  apply List.map_congr_left
  intro q _
  simp [Function.comp, collect_eq_bucketOf P q.1 hart]

/-- The spec's two-sector ordering example catalog. -/
def techFinCatalog : SectorCatalog := [("Tech", ["tech"]), ("Finance", ["bank"])]

/-- A processed article tagged with Finance only. -/
def procA : Article :=
  ⟨Field.str "A", Field.str "", "l", "p", "s", some ["Finance"], some "A."⟩

/-- A processed article tagged with Tech and Finance. -/
def procB : Article :=
  ⟨Field.str "B", Field.str "", "l", "p", "s", some ["Tech", "Finance"], some "B."⟩

/-- A processed article carrying a tag that is not a catalog key. -/
def procUnknown : Article :=
  ⟨Field.str "C", Field.str "", "l", "p", "s", some ["Crypto", "Finance"], some "C."⟩

/-- Claim C2, witness: the spec's ordering example — Tech first per catalog
order, and the Finance bucket holding both articles in input order. -/
theorem payload_matches_spec_witness :
    (∀ a ∈ [procA, procB], a.sectorsList.Nodup) ∧
    newsletter_payload techFinCatalog [procA, procB]
      = payload_spec techFinCatalog [procA, procB] ∧
    newsletter_payload techFinCatalog [procA, procB]
      = [("Tech", [procB]), ("Finance", [procA, procB])] :=
  ⟨by decide, payload_matches_spec techFinCatalog [procA, procB] (by decide), by decide⟩

/-! ## C10: payload keys come from the catalog -/

/-- Claim C10: the grouped keys are exactly the catalog keys, every payload
key is a catalog key, and appending under a name absent from the buckets
silently changes nothing — an unknown sector tag can never introduce a
payload key. -/
theorem payload_keys_subset (S : SectorCatalog) (P : List Article) :
    (articles_by_sector S P).map Prod.fst = S.map Prod.fst ∧
    (newsletter_payload S P).map Prod.fst ⊆ S.map Prod.fst ∧
    (∀ (bs : List (String × List Article)) (s : String) (a : Article),
        s ∉ bs.map Prod.fst → append_article bs s a = bs) := by
  have hkeys : (articles_by_sector S P).map Prod.fst = S.map Prod.fst := by
    rw [articles_by_sector_eq, List.map_map]
    apply List.map_congr_left
    intro q _
    rfl
  refine ⟨hkeys, ?_, ?_⟩
  · have hsub : List.Sublist ((newsletter_payload S P).map Prod.fst)
        ((articles_by_sector S P).map Prod.fst) :=
      List.Sublist.map Prod.fst (List.filter_sublist _)
    rw [hkeys] at hsub
    exact hsub.subset
  · intro bs s a hs
    unfold append_article
    have hpt : ∀ p ∈ bs, (if p.1 = s then (p.1, p.2 ++ [a]) else p) = id p := by
      intro p hp
      have hne : p.1 ≠ s := fun he => hs (he ▸ List.mem_map_of_mem Prod.fst hp)
      simp [hne]
    rw [List.map_congr_left hpt, List.map_id]

/-- Claim C10, witness: an article tagged with the unknown sector "Crypto"
is simply not bucketed under it, and the payload keys stay catalog keys. -/
theorem payload_keys_subset_witness :
    ((articles_by_sector techFinCatalog [procUnknown]).map Prod.fst
        = techFinCatalog.map Prod.fst ∧
      (newsletter_payload techFinCatalog [procUnknown]).map Prod.fst
        ⊆ techFinCatalog.map Prod.fst ∧
      (∀ (bs : List (String × List Article)) (s : String) (a : Article),
          s ∉ bs.map Prod.fst → append_article bs s a = bs)) ∧
    newsletter_payload techFinCatalog [procUnknown] = [("Finance", [procUnknown])] :=
  ⟨payload_keys_subset techFinCatalog [procUnknown], by decide⟩

/-! ## C5: normalization of missing and null fields -/

/-- An article whose title key holds Python `None`, as the fetch layer
produces whenever the upstream response has no title. -/
def nullTitleArticle : Article :=
  ⟨Field.null, Field.str "something", "l", "p", "s", none, none⟩

/-- Claim C5, counterexample: for a `None` title the claim requires the
combined text `". something"`, but `article.get('title', '')` only
defaults on an absent key, so the f-string interpolates the `None` value
as the text `"None"` and the combined text is `"None. something"`. -/
theorem null_field_not_empty_cex :
    combined_text nullTitleArticle = "None. something" ∧
    combined_text nullTitleArticle ≠ ". something" := by decide

/-- Claim C5, amended: a missing title or summary key is substituted by the
empty string; a key present with `None` is interpolated as the literal text
`"None"`; in either case per-article normalization and processing are total
and the run is never aborted — every input article yields exactly one
post-state entry. -/
theorem normalization_total (a : Article) (articles : List Article) (S : SectorCatalog) :
    combined_text { a with title := Field.missing }
        = combined_text { a with title := Field.str "" } ∧
    combined_text { a with summary := Field.missing }
        = combined_text { a with summary := Field.str "" } ∧
    combined_text { a with title := Field.null }
        = combined_text { a with title := Field.str "None" } ∧
    combined_text { a with summary := Field.null }
        = combined_text { a with summary := Field.str "None" } ∧
    (process_articles articles S).1.length = articles.length :=
  ⟨rfl, rfl, rfl, rfl, process_articles_length articles S⟩

/-! ## C6: the empty-article document -/

/-- Claim C6: an article with empty title and empty summary normalizes to
the literal `". "`, whose derived sentence sequence is empty, and the
summarizer yields `""` on it. -/
theorem empty_article_document (a : Article) (h1 : a.title = Field.str "")
    (h2 : a.summary = Field.str "") :
    combined_text a = ". " ∧
    sent_segments (combined_text a) = [] ∧
    summarize_text (combined_text a) default_max_sentences = "" := by
  have hc : combined_text a = ". " := by
    unfold combined_text
    rw [h1, h2]
    decide
  refine ⟨hc, ?_, ?_⟩ <;> rw [hc] <;> decide

/-- The all-empty article. -/
def exEmptyArticle : Article := ⟨Field.str "", Field.str "", "l", "p", "s", none, none⟩

/-- Claim C6, witness: the concrete empty article. -/
theorem empty_article_document_witness :
    exEmptyArticle.title = Field.str "" ∧ exEmptyArticle.summary = Field.str "" ∧
    (combined_text exEmptyArticle = ". " ∧
      sent_segments (combined_text exEmptyArticle) = [] ∧
      summarize_text (combined_text exEmptyArticle) default_max_sentences = "") :=
  ⟨rfl, rfl, empty_article_document exEmptyArticle rfl rfl⟩

/-! ## C7: empty catalog is not rejected -/

/-- Claim C7, counterexample: an empty catalog is not rejected eagerly — at
a concrete article the classifier returns the empty sequence, processing
keeps nothing, and the payload is empty, with no failure signalled. -/
theorem empty_catalog_not_rejected_cex :
    categorize_article "Bank stocks rally. Markets rise." [] = [] ∧
    (process_articles [exNewsArticle] []).2 = [] ∧
    newsletter_payload [] ((process_articles [exNewsArticle] []).2) = [] := by decide

/-- Claim C7, amended: the core performs no catalog validation: with an
empty catalog the classifier silently returns the empty classification for
every text, every article is discarded, and the payload is always empty. -/
theorem empty_catalog_silent (t : String) (articles P : List Article) :
    categorize_article t [] = [] ∧
    (process_articles articles []).2 = [] ∧
    newsletter_payload [] P = [] := by
  refine ⟨rfl, ?_, ?_⟩
  · induction articles with
    | nil => rfl
    | cons a rest ih =>
        simp [process_articles, process_article_step_no_match [] a rfl, ih]
  · unfold newsletter_payload
    rw [articles_by_sector_eq]
    rfl

/-! ## C8: the caller's articles are mutated in place -/

/-- Claim C8, counterexample: running the pipeline does modify the
caller-owned article records — after `process_articles`, the caller's list
differs from the input, the matched article having had its `sectors` and
`generated_summary` keys set in place. -/
theorem input_articles_mutated_cex :
    (process_articles [exNewsArticle] financeCatalog).1 ≠ [exNewsArticle] ∧
    (process_articles [exNewsArticle] financeCatalog).1
      = [{ exNewsArticle with
            sectors := some ["Finance"],
            generated_summary := some "Bank stocks rally. Markets rise." }] := by decide

/-- Claim C8, amended: the pipeline never changes the five caller-supplied
fields (title, summary, link, published, source) of any input article, but
it enriches matched articles by mutating them in place: the
`processed_data` entries alias records of the caller's (mutated) list
rather than being fresh copies. -/
theorem pipeline_preserves_caller_fields (articles : List Article) (S : SectorCatalog) :
    ((process_articles articles S).1).map baseFields = articles.map baseFields ∧
    ∀ x ∈ (process_articles articles S).2, x ∈ (process_articles articles S).1 := by
  induction articles with
  | nil => exact ⟨rfl, by simp [process_articles]⟩
  | cons a rest ih =>
      constructor
      · simp [process_articles, process_article_step_base, ih.1]
      · intro x hx
        simp only [process_articles] at hx ⊢
        by_cases hkept : (process_article_step S a).2 = true
        · rw [if_pos hkept] at hx
          rcases List.mem_cons.mp hx with h1 | h2
          · exact List.mem_cons.mpr (Or.inl h1)
          · exact List.mem_cons.mpr (Or.inr (ih.2 x h2))
        · rw [if_neg hkept] at hx
          exact List.mem_cons.mpr (Or.inr (ih.2 x hx))

/-- Claim C8, witness: the amended statement at the concrete matching
article. -/
theorem pipeline_preserves_caller_fields_witness :
    ((process_articles [exNewsArticle] financeCatalog).1).map baseFields
        = [exNewsArticle].map baseFields ∧
    ∀ x ∈ (process_articles [exNewsArticle] financeCatalog).2,
      x ∈ (process_articles [exNewsArticle] financeCatalog).1 :=
  pipeline_preserves_caller_fields [exNewsArticle] financeCatalog

end Newsletter
